import Mathlib

/-!
Verification development for the SmartFridge snapshot ingestion pipeline.

The repository ships the frontend (TypeScript, `smartfridge_frontend/`) and
design documents; the backend pipeline modules (result parser & validator,
snapshot state machine, job queue, categorization batch job) are referenced
by the documentation but their Python sources are not part of this tree, so
those components are modelled here directly from the specification text
(each such definition carries a `Modelled from the spec:` doc comment).
The `ApiClient` definitions are translated from the frontend source.
-/

namespace SmartFridge

/-- A JSON value, as produced by strict JSON decoding of the model's raw
text.  A number literal with digits `d...d.f...f` is kept as an exact
mantissa/exponent pair `num m e` denoting the rational `m / 10 ^ e`
(enough for integer and decimal fraction literals). -/
inductive Json where
  | null : Json
  | bool (b : Bool) : Json
  | num (m : Int) (e : Nat) : Json
  | str (s : String) : Json
  | arr (elems : List Json) : Json
  | obj (fields : List (String × Json)) : Json

/-- The rational value denoted by a `Json.num m e` literal. -/
def numVal (m : Int) (e : Nat) : Rat := (m : Rat) / (10 : Rat) ^ e

/-- JSON insignificant whitespace characters. -/
def isWs (c : Char) : Bool :=
  c = ' ' || c = '\n' || c = '\t' || c = '\r'

/-- Skip leading JSON whitespace. -/
def skipWs (cs : List Char) : List Char :=
  cs.dropWhile isWs

/-- Consume an expected literal `lit` from the front of `cs`. -/
def dropLit : List Char → List Char → Option (List Char)
  | [], cs => some cs
  | _ :: _, [] => none
  | l :: ls, c :: cs => if c = l then dropLit ls cs else none

/-- Decimal digits to a natural number. -/
def digitsToNat (ds : List Char) : Nat :=
  ds.foldl (fun n c => n * 10 + (c.toNat - '0'.toNat)) 0

/-- Parse the body of a JSON string literal (after the opening quote),
returning the decoded characters and the remainder after the closing
quote.  Common escapes are supported; unsupported escapes fail. -/
def parseStrBody : List Char → Option (List Char × List Char)
  | [] => none
  | '"' :: rest => some ([], rest)
  | '\\' :: e :: rest =>
    (match e with
      | '"' => some '"'
      | '\\' => some '\\'
      | '/' => some '/'
      | 'n' => some '\n'
      | 't' => some '\t'
      | 'r' => some '\r'
      | _ => none).bind fun c =>
      (parseStrBody rest).map fun (s, r) => (c :: s, r)
  | '\\' :: [] => none
  | c :: rest => (parseStrBody rest).map fun (s, r) => (c :: s, r)

/-- Parse a JSON number literal (optional minus, digits, optional
fraction part) into an exact mantissa/exponent pair. -/
def parseNum (cs : List Char) : Option ((Int × Nat) × List Char) :=
  let signAndRest : Bool × List Char :=
    match cs with
    | '-' :: r => (true, r)
    | _ => (false, cs)
  let neg := signAndRest.1
  let cs1 := signAndRest.2
  let ds := cs1.takeWhile Char.isDigit
  let cs2 := cs1.dropWhile Char.isDigit
  if ds.isEmpty then none
  else
    match cs2 with
    | '.' :: cs3 =>
      let fs := cs3.takeWhile Char.isDigit
      let cs4 := cs3.dropWhile Char.isDigit
      if fs.isEmpty then none
      else
        let m : Nat := digitsToNat ds * 10 ^ fs.length + digitsToNat fs
        some ((if neg then -(m : Int) else (m : Int), fs.length), cs4)
    | _ =>
      some ((if neg then -(digitsToNat ds : Int) else (digitsToNat ds : Int), 0), cs2)

mutual

/-- Modelled from the spec: "attempt strict JSON decoding of the raw text"
(§4.4).  Fuel-indexed recursive-descent JSON value parser over characters;
returns the value and the unconsumed remainder. -/
def parseVal : Nat → List Char → Option (Json × List Char)
  | 0, _ => none
  | fuel + 1, cs =>
    match skipWs cs with
    | [] => none
    | c :: rest =>
      if c = 'n' then (dropLit ['u', 'l', 'l'] rest).map fun r => (.null, r)
      else if c = 't' then (dropLit ['r', 'u', 'e'] rest).map fun r => (.bool true, r)
      else if c = 'f' then (dropLit ['a', 'l', 's', 'e'] rest).map fun r => (.bool false, r)
      else if c = '"' then (parseStrBody rest).map fun (s, r) => (.str ⟨s⟩, r)
      else if c = '[' then
        match skipWs rest with
        | ']' :: r => some (.arr [], r)
        | _ => (parseElems fuel rest).map fun (xs, r) => (.arr xs, r)
      else if c = '{' then
        match skipWs rest with
        | '}' :: r => some (.obj [], r)
        | _ => (parseMembers fuel rest).map fun (fs, r) => (.obj fs, r)
      else if c.isDigit || c = '-' then
        (parseNum (c :: rest)).map fun (me, r) => (.num me.1 me.2, r)
      else none

/-- Array elements: one value, then either a comma and more elements or a
closing bracket. -/
def parseElems : Nat → List Char → Option (List Json × List Char)
  | 0, _ => none
  | fuel + 1, cs =>
    (parseVal fuel cs).bind fun (v, rest) =>
      match skipWs rest with
      | ',' :: r => (parseElems fuel r).map fun (xs, r2) => (v :: xs, r2)
      | ']' :: r => some ([v], r)
      | _ => none

/-- Object members: a string key, a colon, a value, then either a comma
and more members or a closing brace. -/
def parseMembers : Nat → List Char → Option (List (String × Json) × List Char)
  | 0, _ => none
  | fuel + 1, cs =>
    match skipWs cs with
    | '"' :: rest =>
      (parseStrBody rest).bind fun (k, rest2) =>
        match skipWs rest2 with
        | ':' :: rest3 =>
          (parseVal fuel rest3).bind fun (v, rest4) =>
            match skipWs rest4 with
            | ',' :: r => (parseMembers fuel r).map fun (fs, r2) => ((⟨k⟩, v) :: fs, r2)
            | '}' :: r => some ([(⟨k⟩, v)], r)
            | _ => none
        | _ => none
    | _ => none

end

/-- Modelled from the spec: strict JSON decoding of a whole text — decode
one value and require only whitespace to remain. -/
def decodeChars (cs : List Char) : Option Json :=
  match parseVal (cs.length + 1) cs with
  | some (v, rest) => if skipWs rest = [] then some v else none
  | none => none

/-- Opening of a markdown code fence carrying a json language tag. -/
def fenceOpenJson : List Char := ['`', '`', '`', 'j', 's', 'o', 'n', '\n']

/-- Opening of a bare markdown code fence. -/
def fenceOpenBare : List Char := ['`', '`', '`', '\n']

/-- Closing of a markdown code fence. -/
def fenceClose : List Char := ['\n', '`', '`', '`']

/-- If `cs` is exactly `opener ++ inner ++ fenceClose`, return `inner`. -/
def stripWith (opener cs : List Char) : Option (List Char) :=
  if cs.take opener.length = opener ∧
      (cs.drop opener.length).reverse.take fenceClose.length = fenceClose.reverse then
    some ((cs.drop opener.length).reverse.drop fenceClose.length).reverse
  else none

/-- Modelled from the spec: "removing markdown code-fence wrappers, if
present, since models over-use them" (§4.4). -/
def stripFence (cs : List Char) : List Char :=
  match stripWith fenceOpenJson cs with
  | some inner => inner
  | none =>
    match stripWith fenceOpenBare cs with
    | some inner => inner
    | none => cs

/-- Wrap a payload in a markdown code fence with a json language tag. -/
def fenceWrap (cs : List Char) : List Char := fenceOpenJson ++ cs ++ fenceClose

/-- One committed inventory line: normalized name and non-negative
integer quantity. -/
structure Item where
  name : String
  quantity : Nat
deriving DecidableEq

/-- Association-list lookup by string key (first match wins). -/
def alookup {α : Type} (key : String) : List (String × α) → Option α
  | [] => none
  | (k, v) :: rest => if k = key then some v else alookup key rest

/-- ASCII lowercase of one character. -/
def lowerAscii (c : Char) : Char :=
  if 'A' ≤ c ∧ c ≤ 'Z' then Char.ofNat (c.toNat + 32) else c

/-- Modelled from the spec: item names are "normalized lowercase for
matching" (§3, Item). ASCII lowering. -/
def lowerStr (s : String) : String := ⟨s.data.map lowerAscii⟩

/-- Round-half-up of the non-negative decimal `m / 10 ^ e` to a natural
number: the floor of `m / 10 ^ e + 1 / 2`, computed with exact natural
arithmetic. -/
def roundHalfUpN (m e : Nat) : Nat := (2 * m + 10 ^ e) / (2 * 10 ^ e)

/-- Modelled from the spec: "for each decoded item require a non-empty
name string and a numeric quantity coercible to a non-negative number —
truncate or round fractional quantities toward the nearest integer with
a caller-documented rounding rule (round half up)" (§4.4).  Malformed
items yield `none` (dropped). -/
def validateItem : Json → Option Item
  | .obj fields =>
    match alookup "name" fields, alookup "quantity" fields with
    | some (.str n), some (.num m e) =>
      if n ≠ "" ∧ 0 ≤ m then some ⟨lowerStr n, roundHalfUpN m.toNat e⟩ else none
    | _, _ => none
  | _ => none

/-- The claim-side well-formedness predicate of §4.4: an object with a
non-empty string name and a numeric quantity that is non-negative. -/
def isWellFormedItem : Json → Bool
  | .obj fields =>
    match alookup "name" fields, alookup "quantity" fields with
    | some (.str n), some (.num m _) => decide (n ≠ "") && decide (0 ≤ m)
    | _, _ => false
  | _ => false

/-- The item a well-formed entry validates to. -/
def itemOf (j : Json) : Item := (validateItem j).getD ⟨"", 0⟩

/-- The distinct parse failure modes of §4.4. -/
inductive ParseError where
  | invalidJson : ParseError
  | notAList : ParseError
  | noValidItems : ParseError
deriving DecidableEq

/-- The item-list payload carried by a decoded response: either a
top-level array, or the conventional items envelope (the §8 scenario
feeds the envelope form and expects success). -/
def itemListOf : Json → Option (List Json)
  | .arr xs => some xs
  | .obj fields =>
    match alookup "items" fields with
    | some (.arr xs) => some xs
    | _ => none
  | _ => none

/-- Validation of a decoded response: reject non-list shapes as a whole,
drop malformed items, and fail when zero valid items remain (§4.4). -/
def parseDecoded (j : Json) : Except ParseError (List Item) :=
  match itemListOf j with
  | none => .error .notAList
  | some xs =>
    if (xs.filterMap validateItem).isEmpty then .error .noValidItems
    else .ok (xs.filterMap validateItem)

/-- Modelled from the spec: `parse(rawText) -> ItemList | ParseError`
(§4.4) — strip fences, strictly decode, then validate. -/
def parseChars (cs : List Char) : Except ParseError (List Item) :=
  match decodeChars (stripFence cs) with
  | none => .error .invalidJson
  | some j => parseDecoded j

/-- `parse` at the string interface. -/
def parse (rawText : String) : Except ParseError (List Item) :=
  parseChars rawText.data

/-- The fixed closed category enum of the backend design document
(part_002). -/
inductive Category where
  | fruits : Category
  | vegetables : Category
  | grains : Category
  | protein_foods : Category
  | dairy_and_alternatives : Category
  | fats_and_oils : Category
  | processed_items : Category
  | other : Category
deriving DecidableEq

/-- The category named by a string, when it is in the enum. -/
def Category.ofString : String → Option Category
  | "fruits" => some .fruits
  | "vegetables" => some .vegetables
  | "grains" => some .grains
  | "protein_foods" => some .protein_foods
  | "dairy_and_alternatives" => some .dairy_and_alternatives
  | "fats_and_oils" => some .fats_and_oils
  | "processed_items" => some .processed_items
  | "other" => some .other
  | _ => none

/-- The category identifier strings of the backend enum (part_002). -/
def backendCategoryStrings : List String :=
  ["fruits", "vegetables", "grains", "protein_foods", "dairy_and_alternatives",
   "fats_and_oils", "processed_items", "other"]

/-- A JSON value read as a category enum member. -/
def categoryValue : Json → Option Category
  | .str s => Category.ofString s
  | _ => none

/-- Failure modes of the categorization validator (§4.5). -/
inductive ValidationError where
  | invalidJson : ValidationError
  | notAnObject : ValidationError
  | invalidEntries : ValidationError
deriving DecidableEq

/-- Modelled from the spec: `parseCategories(rawText, allowedProducts)`
(§4.5) — requires valid JSON, every key a product of the batch, no
missing keys, and every value in the fixed category enum; any single
invalid entry fails the whole batch. -/
def parseCategories (rawText : String) (allowedProducts : List String) :
    Except ValidationError (List (String × Category)) :=
  match decodeChars (stripFence rawText.data) with
  | none => .error .invalidJson
  | some (.obj fields) =>
    if fields.all (fun kv => allowedProducts.contains kv.1 && (categoryValue kv.2).isSome)
        && allowedProducts.all (fun a => fields.any (fun kv => kv.1 = a)) then
      .ok (fields.filterMap fun kv => (categoryValue kv.2).map fun c => (kv.1, c))
    else .error .invalidEntries
  | some _ => .error .notAnObject

/-- A product category record (§3). -/
structure Product where
  name : String
  category : Option Category
deriving DecidableEq

/-- Modelled from the spec: the Categorization Batch Job "commits only if
validation passes for the entire batch; otherwise no category changes
are applied" (§4.8). -/
def applyCategoriesBatch (products : List Product) (rawText : String) : List Product :=
  match parseCategories rawText (products.map (·.name)) with
  | .error _ => products
  | .ok m =>
    products.map fun p =>
      match alookup p.name m with
      | some c => { p with category := some c }
      | none => p

/-- Snapshot lifecycle status (§4.6). -/
inductive Status where
  | pending : Status
  | processing : Status
  | complete : Status
  | failed : Status
deriving DecidableEq

/-- `complete` and `failed` are the terminal states (§4.6). -/
def Status.isTerminal : Status → Bool
  | .complete => true
  | .failed => true
  | _ => false

/-- Failure reason classes recorded in last-error (§7). -/
inductive ErrReason where
  | transient : ErrReason
  | validation : ErrReason
  | nonRetryable : ErrReason
deriving DecidableEq

/-- The snapshot row: status, attempt count, last-error, and its visible
committed item rows (§3). -/
structure Snap where
  status : Status
  attempts : Nat
  lastError : Option ErrReason
  items : List Item
deriving DecidableEq

/-- One snapshot's pipeline state: its row and whether its processing job
is still in the queue (not yet acknowledged). -/
structure PState where
  snap : Snap
  jobQueued : Bool
deriving DecidableEq

/-- Upload flow creates the snapshot `pending`, with no items, one queued
job (§3, §6). -/
def initState : PState := ⟨⟨.pending, 0, none, []⟩, true⟩

/-- Pipeline configuration: the configured maximum attempt count (§7). -/
structure Config where
  maxAttempts : Nat

/-- Modelled from the spec: the snapshot state machine and queue
discipline (§4.2, §4.6, §5, §7).  One small step of the pipeline on one
snapshot:
* `claim`: a worker claims the queued job, `pending → processing`,
  recording an attempt increment;
* `reclaim`: crash-recovery re-entry, `processing → processing`, after a
  lease expiry made the job redeliverable;
* `commit`: parse succeeded — items committed and `processing → complete`
  in one atomic step, job acknowledged;
* `parseFail`: non-retryable validation error, `processing → failed`,
  zero items committed, job acknowledged;
* `failNonRetryable`: other non-retryable extraction error,
  `processing → failed`, job acknowledged;
* `transientRetry`: retryable error under the attempt ceiling — job goes
  back to the queue for redelivery;
* `transientExhaust`: retryable error at the attempt ceiling —
  `processing → failed` with a transient reason, job acknowledged;
* `staleDiscard`: a worker regaining control re-checks the status, finds
  a terminal state and discards its result (no change). -/
inductive Step (cfg : Config) : PState → PState → Prop where
  | claim (s : PState) :
      s.snap.status = .pending → s.jobQueued = true →
      Step cfg s ⟨⟨.processing, s.snap.attempts + 1, s.snap.lastError, s.snap.items⟩, true⟩
  | reclaim (s : PState) :
      s.snap.status = .processing → s.jobQueued = true →
      Step cfg s ⟨⟨.processing, s.snap.attempts + 1, s.snap.lastError, s.snap.items⟩, true⟩
  | commit (s : PState) (raw : List Char) (items : List Item) :
      s.snap.status = .processing → parseChars raw = .ok items →
      Step cfg s ⟨⟨.complete, s.snap.attempts, none, items⟩, false⟩
  | parseFail (s : PState) (raw : List Char) (e : ParseError) :
      s.snap.status = .processing → parseChars raw = .error e →
      Step cfg s ⟨⟨.failed, s.snap.attempts, some .validation, s.snap.items⟩, false⟩
  | failNonRetryable (s : PState) :
      s.snap.status = .processing →
      Step cfg s ⟨⟨.failed, s.snap.attempts, some .nonRetryable, s.snap.items⟩, false⟩
  | transientRetry (s : PState) :
      s.snap.status = .processing → s.snap.attempts < cfg.maxAttempts →
      Step cfg s ⟨⟨.processing, s.snap.attempts, some .transient, s.snap.items⟩, true⟩
  | transientExhaust (s : PState) :
      s.snap.status = .processing → cfg.maxAttempts ≤ s.snap.attempts →
      Step cfg s ⟨⟨.failed, s.snap.attempts, some .transient, s.snap.items⟩, false⟩
  | staleDiscard (s : PState) :
      s.snap.status.isTerminal = true →
      Step cfg s s

/-- Reflexive-transitive closure of `Step`: reachability. -/
inductive Reach (cfg : Config) : PState → PState → Prop where
  | refl (s : PState) : Reach cfg s s
  | tail {s t u : PState} : Reach cfg s t → Step cfg t u → Reach cfg s u

/-- The direct status edges the lifecycle allows (§4.6), self re-entry
included. -/
def statusEdge : Status → Status → Bool
  | .pending, .pending => true
  | .pending, .processing => true
  | .processing, .processing => true
  | .processing, .complete => true
  | .processing, .failed => true
  | .complete, .complete => true
  | .failed, .failed => true
  | _, _ => false

/-- The preset style keys of the frontend `CATEGORY_STYLES` record
(`ProductCategoryKey`, part_008). -/
def frontendCategoryKeys : List String :=
  ["FRUITS_VEGETABLES", "GRAINS_STARCH", "DAIRY", "PROTEIN_FOODS", "FATS_OILS",
   "PROCESSED_FOODS", "OTHER"]

/-- ASCII uppercase of one character. -/
def upperAscii (c : Char) : Char :=
  if 'a' ≤ c ∧ c ≤ 'z' then Char.ofNat (c.toNat - 32) else c

/-- Trim surrounding whitespace at the character level. -/
def trimChars (cs : List Char) : List Char :=
  ((cs.dropWhile isWs).reverse.dropWhile isWs).reverse

/-- The key normalization of `getCategoryStyle` (part_008):
`(category || "").trim().toUpperCase()`, modelled for ASCII. -/
def normalizeCategoryKey (s : String) : String :=
  ⟨(trimChars s.data).map upperAscii⟩

/-- Whether `getCategoryStyle` (part_008) resolves a preset style for a
category string: the normalized key is one of the `CATEGORY_STYLES`
keys.  Otherwise the default style (label "Uncategorized") is used. -/
def hasPresetStyle (category : String) : Bool :=
  frontendCategoryKeys.contains (normalizeCategoryKey category)

/-- The paths `shouldAttemptRefresh` (part_010) never refreshes for. -/
def nonRefreshablePaths : List String :=
  ["/auth/login", "/auth/signup", "/auth/logout", "/auth/refresh"]

/-- `ApiClient.normalizePath` (part_010): ensure a leading slash. -/
def normalizePath (path : String) : String :=
  match path.data with
  | '/' :: _ => path
  | _ => ⟨'/' :: path.data⟩

/-- `ApiClient.shouldAttemptRefresh` (part_010): refresh only on a first
401/403 outside the four auth paths. -/
def shouldAttemptRefresh (path : String) (status : Nat) (attemptedRefresh : Bool) : Bool :=
  if attemptedRefresh then false
  else if status ≠ 401 ∧ status ≠ 403 then false
  else !(nonRefreshablePaths.contains (normalizePath path))

/-- What `handleResponse` (part_010) produces: the parsed payload on an
ok response, a thrown `ApiError` carrying the status otherwise. -/
inductive ReqOutcome where
  | success (status : Nat) : ReqOutcome
  | apiError (status : Nat) : ReqOutcome
deriving DecidableEq

/-- `ApiClient.handleResponse` (part_010): `response.ok` (status in
200..299) returns the payload, anything else throws `ApiError`. -/
def handleResponse (status : Nat) : ReqOutcome :=
  if 200 ≤ status ∧ status < 300 then .success status else .apiError status

/-- `ApiClient.requestWithRefresh` (part_010).  The network is abstracted
by `oracle n`, the HTTP status of the n-th fetch of this request, and
`refreshOk`, whether the `POST /auth/refresh` fetch succeeds.  On a
refreshable 401/403 the client refreshes and, when the refresh
succeeded, retries with `attemptedRefresh = true` (the source passes the
already-normalized path down; normalizing at each use is equivalent).
The result pairs the outcome with the number of token-refresh attempts;
`none` means the recursion fuel ran out. -/
def requestWithRefresh (path : String) (oracle : Nat → Nat) (refreshOk : Bool) :
    Nat → Bool → Nat → Option (ReqOutcome × Nat)
  | 0, _, _ => none
  | fuel + 1, attemptedRefresh, idx =>
    let status := oracle idx
    if shouldAttemptRefresh path status attemptedRefresh then
      if refreshOk then
        (requestWithRefresh path oracle refreshOk fuel true (idx + 1)).map
          (fun res => (res.1, res.2 + 1))
      else some (handleResponse status, 1)
    else some (handleResponse status, 0)

/-- `ApiClient.request` (part_010): `requestWithRefresh(path, init, false)`.
Fuel 2 covers the initial fetch and the single possible retry. -/
def request (path : String) (oracle : Nat → Nat) (refreshOk : Bool) :
    Option (ReqOutcome × Nat) :=
  requestWithRefresh path oracle refreshOk 2 false 0

end SmartFridge

namespace SmartFridge

theorem decode_smoke_array : decodeChars "[1, 2]".data =
    some (.arr [.num 1 0, .num 2 0]) := rfl

theorem decode_smoke_obj : decodeChars "\x7b\"a\": -1.5\x7d".data =
    some (.obj [("a", .num (-15) 1)]) := rfl

theorem parse_smoke_ok :
    parse "\x7b\"items\":[\x7b\"name\":\"milk\",\"quantity\":1\x7d,\x7b\"name\":\"\",\"quantity\":2\x7d]\x7d" =
      .ok [⟨"milk", 1⟩] := rfl

theorem parse_smoke_prose :
    parse "I see milk and eggs on the shelf." = .error .invalidJson := rfl

/-- An entry validates successfully exactly when it is well-formed. -/
theorem validateItem_isSome (j : Json) :
    (validateItem j).isSome = isWellFormedItem j := by
  cases j with
  | obj fields =>
    unfold validateItem isWellFormedItem
    rcases h1 : alookup "name" fields with _ | v1 <;>
      rcases h2 : alookup "quantity" fields with _ | v2 <;>
      simp only [h1, h2]
    · rfl
    · cases v2 <;> rfl
    · cases v1 <;> rfl
    · cases v1 <;> cases v2 <;> try rfl
      rename_i n m e
      show (if n ≠ "" ∧ 0 ≤ m then
          some (Item.mk (lowerStr n) (roundHalfUpN m.toNat e)) else none).isSome
        = (decide (n ≠ "") && decide (0 ≤ m))
      by_cases hn : n = ""
      · simp [hn]
      · by_cases hm : 0 ≤ m
        · simp [hn, hm]
        · simp [hn, hm]
  | _ => rfl

/-- The dropped/kept split of validation: filtering malformed entries
out and reading the rest. -/
theorem filterMap_validateItem (xs : List Json) :
    xs.filterMap validateItem = (xs.filter isWellFormedItem).map itemOf := by
  induction xs with
  | nil => rfl
  | cons x xs ih =>
    by_cases h : isWellFormedItem x
    · have hs : (validateItem x).isSome = true := by rw [validateItem_isSome]; exact h
      rcases ho : validateItem x with _ | i
      · rw [ho] at hs; simp at hs
      · simp [List.filterMap_cons, List.filter_cons, ho, h, ih, itemOf]
    · have hs : (validateItem x).isSome = false := by
        rw [validateItem_isSome]; simpa using h
      rcases ho : validateItem x with _ | i
      · simp [List.filterMap_cons, List.filter_cons, ho, h, ih]
      · rw [ho] at hs; simp at hs

/-- Stripping recovers the payload of an exactly fenced text. -/
theorem stripWith_wrap (opener p : List Char) :
    stripWith opener (opener ++ p ++ fenceClose) = some p := by
  unfold stripWith
  have h1 : (opener ++ p ++ fenceClose).take opener.length = opener := by
    rw [List.append_assoc]
    exact List.take_left _ _
  have hd : (opener ++ p ++ fenceClose).drop opener.length = p ++ fenceClose := by
    rw [List.append_assoc]
    exact List.drop_left _ _
  have h2 : (p ++ fenceClose).reverse.take fenceClose.length = fenceClose.reverse := by
    rw [List.reverse_append]
    have hlen : fenceClose.length = fenceClose.reverse.length := (List.length_reverse _).symm
    rw [hlen]
    exact List.take_left _ _
  rw [hd, if_pos ⟨h1, h2⟩]
  rw [List.reverse_append]
  have hlen : fenceClose.length = fenceClose.reverse.length := (List.length_reverse _).symm
  rw [hlen, List.drop_left, List.reverse_reverse]

/-- If a take-prefix equation holds with a cons right side, the list
itself starts with that character. -/
theorem take_eq_cons {cs l : List Char} {c : Char} {n : Nat}
    (h : cs.take n = c :: l) : ∃ t, cs = c :: t := by
  cases cs with
  | nil => simp at h
  | cons a t =>
    cases n with
    | zero => simp at h
    | succ n =>
      rw [List.take_succ_cons] at h
      exact ⟨t, by rw [((List.cons.injEq _ _ _ _).mp h).1]⟩

/-- A text beginning with a backtick is not valid JSON. -/
theorem decodeChars_backtick (t : List Char) : decodeChars ('`' :: t) = none := rfl

/-- Fence stripping recovers the payload of a fenced text. -/
theorem stripFence_wrap (cs : List Char) : stripFence (fenceWrap cs) = cs := by
  unfold stripFence fenceWrap
  rw [stripWith_wrap]

/-- A decodable (valid JSON) text carries no fence, so stripping leaves
it unchanged. -/
theorem stripFence_of_decodable {cs : List Char}
    (h : (decodeChars cs).isSome = true) : stripFence cs = cs := by
  have hnone : ∀ opener : List Char, opener.take 1 = ['`'] →
      stripWith opener cs = none := by
    intro opener hop
    rcases hw : stripWith opener cs with _ | inner
    · rfl
    · exfalso
      unfold stripWith at hw
      split at hw
      · rename_i hcond
        have htake : cs.take opener.length = opener := hcond.1
        have hhead : ∃ t, cs = '`' :: t := by
          rcases hopc : opener with _ | ⟨c, rest⟩
          · rw [hopc] at hop; simp at hop
          · rw [hopc] at hop
            rw [List.take_succ_cons] at hop
            have hc : c = '`' := (List.cons.injEq _ _ _ _).mp hop |>.1
            rw [hopc, hc] at htake
            exact take_eq_cons htake
        obtain ⟨t, ht⟩ := hhead
        rw [ht, decodeChars_backtick] at h
        simp at h
      · exact Option.noConfusion hw
  unfold stripFence
  rw [hnone fenceOpenJson rfl, hnone fenceOpenBare rfl]

/-- A successful parse never carries an empty item list. -/
theorem parse_ok_ne_nil {raw : List Char} {items : List Item}
    (h : parseChars raw = .ok items) : items ≠ [] := by
  unfold parseChars at h
  split at h
  · exact absurd h (by simp)
  rename_i j hd
  unfold parseDecoded at h
  split at h
  · exact absurd h (by simp)
  split at h
  · exact absurd h (by simp)
  · rename_i xs hl hempty
    simp only [Except.ok.injEq] at h
    subst h
    simpa [List.isEmpty_iff] using hempty

/-- No step leaves a terminal state: every enabled transition out of a
terminal status is the discard self-loop. -/
theorem step_terminal_fix {cfg : Config} {s s' : PState} (hstep : Step cfg s s')
    (ht : s.snap.status.isTerminal = true) : s' = s := by
  cases hstep with
  | claim h1 h2 => rw [h1] at ht; exact absurd ht (by simp [Status.isTerminal])
  | reclaim h1 h2 => rw [h1] at ht; exact absurd ht (by simp [Status.isTerminal])
  | commit raw its h1 h2 => rw [h1] at ht; exact absurd ht (by simp [Status.isTerminal])
  | parseFail raw e h1 h2 => rw [h1] at ht; exact absurd ht (by simp [Status.isTerminal])
  | failNonRetryable h1 => rw [h1] at ht; exact absurd ht (by simp [Status.isTerminal])
  | transientRetry h1 h2 => rw [h1] at ht; exact absurd ht (by simp [Status.isTerminal])
  | transientExhaust h1 h2 => rw [h1] at ht; exact absurd ht (by simp [Status.isTerminal])
  | staleDiscard h => rfl

/-- Every step follows an allowed lifecycle edge. -/
theorem step_statusEdge {cfg : Config} {s s' : PState} (hstep : Step cfg s s') :
    statusEdge s.snap.status s'.snap.status = true := by
  cases hstep with
  | claim h1 h2 => rw [h1]; rfl
  | reclaim h1 h2 => rw [h1]; rfl
  | commit raw its h1 h2 => rw [h1]; rfl
  | parseFail raw e h1 h2 => rw [h1]; rfl
  | failNonRetryable h1 => rw [h1]; rfl
  | transientRetry h1 h2 => rw [h1]; rfl
  | transientExhaust h1 h2 => rw [h1]; rfl
  | staleDiscard h => cases hs : s.snap.status <;> rfl

/-- Terminal states are absorbing along any run. -/
theorem reach_terminal_fix {cfg : Config} {s u : PState} (hr : Reach cfg s u)
    (ht : s.snap.status.isTerminal = true) : u = s := by
  induction hr with
  | refl => rfl
  | tail hr hstep ih =>
    have heq := ih
    rw [heq] at hstep
    exact step_terminal_fix hstep ht

/-- Invariant of every reachable state: item rows are visible exactly
under a `complete` status. -/
theorem reach_items_iff {cfg : Config} {s : PState} (hr : Reach cfg initState s) :
    s.snap.status = .complete ↔ s.snap.items ≠ [] := by
  induction hr with
  | refl => simp [initState]
  | tail hr hstep ih =>
    rename_i t u
    cases hstep with
    | claim h1 h2 =>
      have hitems : t.snap.items = [] := by
        by_contra hne
        have hc := ih.mpr hne
        rw [h1] at hc
        exact Status.noConfusion hc
      exact ⟨fun hc => Status.noConfusion hc, fun hne => absurd hitems hne⟩
    | reclaim h1 h2 =>
      have hitems : t.snap.items = [] := by
        by_contra hne
        have hc := ih.mpr hne
        rw [h1] at hc
        exact Status.noConfusion hc
      exact ⟨fun hc => Status.noConfusion hc, fun hne => absurd hitems hne⟩
    | commit raw its h1 h2 =>
      exact ⟨fun _ => parse_ok_ne_nil h2, fun _ => rfl⟩
    | parseFail raw e h1 h2 =>
      have hitems : t.snap.items = [] := by
        by_contra hne
        have hc := ih.mpr hne
        rw [h1] at hc
        exact Status.noConfusion hc
      exact ⟨fun hc => Status.noConfusion hc, fun hne => absurd hitems hne⟩
    | failNonRetryable h1 =>
      have hitems : t.snap.items = [] := by
        by_contra hne
        have hc := ih.mpr hne
        rw [h1] at hc
        exact Status.noConfusion hc
      exact ⟨fun hc => Status.noConfusion hc, fun hne => absurd hitems hne⟩
    | transientRetry h1 h2 =>
      have hitems : t.snap.items = [] := by
        by_contra hne
        have hc := ih.mpr hne
        rw [h1] at hc
        exact Status.noConfusion hc
      exact ⟨fun hc => Status.noConfusion hc, fun hne => absurd hitems hne⟩
    | transientExhaust h1 h2 =>
      have hitems : t.snap.items = [] := by
        by_contra hne
        have hc := ih.mpr hne
        rw [h1] at hc
        exact Status.noConfusion hc
      exact ⟨fun hc => Status.noConfusion hc, fun hne => absurd hitems hne⟩
    | staleDiscard h => exact ih

/-- Item rows change only in the atomic commit step: from an empty item
set, together with the transition to `complete`, to the full nonempty
batch. -/
theorem step_items_change {cfg : Config} {s s' : PState}
    (hr : Reach cfg initState s) (hstep : Step cfg s s')
    (hne : s'.snap.items ≠ s.snap.items) :
    s.snap.items = [] ∧ s'.snap.status = .complete ∧ s'.snap.items ≠ [] := by
  cases hstep with
  | commit raw its h1 h2 =>
    have hitems : s.snap.items = [] := by
      by_contra hx
      have hc := (reach_items_iff hr).mpr hx
      rw [h1] at hc
      exact Status.noConfusion hc
    exact ⟨hitems, rfl, parse_ok_ne_nil h2⟩
  | claim h1 h2 => exact absurd rfl hne
  | reclaim h1 h2 => exact absurd rfl hne
  | parseFail raw e h1 h2 => exact absurd rfl hne
  | failNonRetryable h1 => exact absurd rfl hne
  | transientRetry h1 h2 => exact absurd rfl hne
  | transientExhaust h1 h2 => exact absurd rfl hne
  | staleDiscard h => exact absurd rfl hne

/-- Rewriting step: a decode failure makes the whole parse fail. -/
theorem parseChars_decode_none {cs : List Char}
    (h : decodeChars (stripFence cs) = none) :
    parseChars cs = .error .invalidJson := by
  unfold parseChars
  rw [h]

/-- Rewriting step: a decode success hands over to validation. -/
theorem parseChars_decode_some {cs : List Char} {j : Json}
    (h : decodeChars (stripFence cs) = some j) :
    parseChars cs = parseDecoded j := by
  unfold parseChars
  rw [h]

/-- Rewriting step: a non-list shape fails validation as a whole. -/
theorem parseDecoded_list_none {j : Json} (h : itemListOf j = none) :
    parseDecoded j = .error .notAList := by
  unfold parseDecoded
  rw [h]

/-- Rewriting step: validation of a list filters and checks emptiness. -/
theorem parseDecoded_list_some {j : Json} {xs : List Json}
    (h : itemListOf j = some xs) :
    parseDecoded j =
      if (xs.filterMap validateItem).isEmpty then .error .noValidItems
      else .ok (xs.filterMap validateItem) := by
  unfold parseDecoded
  rw [h]

/-- C1: for every snapshot at every reachable state of the pipeline, the
snapshot has committed item rows if and only if its status is `complete`
(never under `pending`, `processing`, or `failed`), and the item rows of
a snapshot change only in the single atomic commit step, from the empty
set to the full nonempty batch together with the transition to
`complete`. -/
theorem items_visible_iff_complete (cfg : Config) (s : PState)
    (hr : Reach cfg initState s) :
    (s.snap.status = .complete ↔ s.snap.items ≠ []) ∧
    (∀ s', Step cfg s s' → s'.snap.items ≠ s.snap.items →
      s.snap.items = [] ∧ s'.snap.status = .complete ∧ s'.snap.items ≠ []) :=
  ⟨reach_items_iff hr, fun _ hstep hne => step_items_change hr hstep hne⟩

/-- Witness for C1 at the initial state. -/
theorem items_visible_iff_complete_witness :
    (initState.snap.status = .complete ↔ initState.snap.items ≠ []) ∧
    (∀ s', Step ⟨3⟩ initState s' → s'.snap.items ≠ initState.snap.items →
      initState.snap.items = [] ∧ s'.snap.status = .complete ∧ s'.snap.items ≠ []) :=
  items_visible_iff_complete ⟨3⟩ initState (Reach.refl initState)

/-- C2: status transitions are monotonic along the
`pending → processing → (complete | failed)` chain, a terminal status is
never left by any step, and a worker that finds a terminal state
discards its result: a whole run from a terminal state changes
nothing. -/
theorem terminal_states_absorbing (cfg : Config) :
    (∀ s s' : PState, Step cfg s s' →
      statusEdge s.snap.status s'.snap.status = true ∧
      (s.snap.status.isTerminal = true → s' = s)) ∧
    (∀ s u : PState, Reach cfg s u → s.snap.status.isTerminal = true → u = s) :=
  ⟨fun _ _ hstep => ⟨step_statusEdge hstep, fun ht => step_terminal_fix hstep ht⟩,
   fun _ _ hr ht => reach_terminal_fix hr ht⟩

/-- Witness for C2 at the initial claim step. -/
theorem terminal_states_absorbing_witness :
    statusEdge initState.snap.status
      (PState.mk (Snap.mk .processing 1 none []) true).snap.status = true ∧
    (initState.snap.status.isTerminal = true →
      (PState.mk (Snap.mk .processing 1 none []) true) = initState) :=
  (terminal_states_absorbing ⟨3⟩).1 initState
    (PState.mk (Snap.mk .processing 1 none []) true)
    (Step.claim initState rfl rfl)

/-- The state reached when a retryable error hits the attempt ceiling:
`failed` with a transient reason, items untouched, job acknowledged. -/
def exhaustState (s : PState) : PState :=
  ⟨⟨.failed, s.snap.attempts, some .transient, s.snap.items⟩, false⟩

/-- C9: a snapshot in `processing` whose attempt count has reached the
configured ceiling moves on a retryable error to `failed` with a
transient-error reason and an acknowledged (dequeued) job, and from
there every run changes nothing — in particular the job is never
redelivered. -/
theorem transient_exhaust_poison (cfg : Config) (s : PState)
    (h1 : s.snap.status = .processing)
    (h2 : cfg.maxAttempts ≤ s.snap.attempts) :
    Step cfg s (exhaustState s) ∧
    (exhaustState s).snap.status = .failed ∧
    (exhaustState s).snap.lastError = some .transient ∧
    (exhaustState s).jobQueued = false ∧
    (∀ u, Reach cfg (exhaustState s) u → u = exhaustState s ∧ u.jobQueued = false) := by
  refine ⟨Step.transientExhaust s h1 h2, rfl, rfl, rfl, ?_⟩
  intro u hr
  have hu : u = exhaustState s := reach_terminal_fix hr rfl
  exact ⟨hu, by rw [hu]; rfl⟩

/-- Witness for C9: third transient failure with a ceiling of three. -/
theorem transient_exhaust_poison_witness :
    Step ⟨3⟩ (PState.mk (Snap.mk .processing 3 (some .transient) []) true)
      (exhaustState (PState.mk (Snap.mk .processing 3 (some .transient) []) true)) ∧
    (exhaustState (PState.mk (Snap.mk .processing 3 (some .transient) []) true)).snap.status
      = .failed ∧
    (exhaustState (PState.mk (Snap.mk .processing 3 (some .transient) []) true)).snap.lastError
      = some .transient ∧
    (exhaustState (PState.mk (Snap.mk .processing 3 (some .transient) []) true)).jobQueued
      = false ∧
    (∀ u, Reach ⟨3⟩ (exhaustState (PState.mk (Snap.mk .processing 3 (some .transient) []) true)) u →
      u = exhaustState (PState.mk (Snap.mk .processing 3 (some .transient) []) true) ∧
      u.jobQueued = false) :=
  transient_exhaust_poison ⟨3⟩ (PState.mk (Snap.mk .processing 3 (some .transient) []) true)
    rfl (by norm_num)

/-- C3: for every raw text that decodes (after fence stripping) to an
item-list payload with at least one well-formed item, `parse` returns
exactly the well-formed subset, and each malformed entry (in particular
an empty-named one) is dropped silently without failing the batch. -/
theorem parse_returns_wellformed_subset (cs : List Char) (j : Json) (xs : List Json)
    (hdec : decodeChars (stripFence cs) = some j)
    (hlist : itemListOf j = some xs)
    (hsome : xs.any isWellFormedItem = true) :
    parseChars cs = .ok ((xs.filter isWellFormedItem).map itemOf) ∧
    (∀ x ∈ xs, isWellFormedItem x = false → validateItem x = none) := by
  have hne : (xs.filterMap validateItem).isEmpty = false := by
    rw [filterMap_validateItem]
    rcases List.any_eq_true.mp hsome with ⟨x, hx, hwf⟩
    have hmem : x ∈ xs.filter isWellFormedItem := List.mem_filter.mpr ⟨hx, hwf⟩
    have hmem2 : itemOf x ∈ (xs.filter isWellFormedItem).map itemOf :=
      List.mem_map_of_mem itemOf hmem
    cases hmap : (xs.filter isWellFormedItem).map itemOf with
    | nil => rw [hmap] at hmem2; simp at hmem2
    | cons a l => rfl
  constructor
  · rw [parseChars_decode_some hdec, parseDecoded_list_some hlist, hne]
    simp only [Bool.false_eq_true, if_false]
    rw [filterMap_validateItem]
  · intro x hx hwf
    have hval := validateItem_isSome x
    rw [hwf] at hval
    rcases hv : validateItem x with _ | i
    · rfl
    · rw [hv] at hval; simp at hval

/-- Witness for C3: the §8 scenario response with one well-formed item
and one empty-named item commits exactly (milk, 1). -/
theorem parse_returns_wellformed_subset_witness :
    parse "\x7b\"items\":[\x7b\"name\":\"milk\",\"quantity\":1\x7d,\x7b\"name\":\"\",\"quantity\":2\x7d]\x7d"
      = .ok [Item.mk "milk" 1] := by
  have h := parse_returns_wellformed_subset
    ("\x7b\"items\":[\x7b\"name\":\"milk\",\"quantity\":1\x7d,\x7b\"name\":\"\",\"quantity\":2\x7d]\x7d".data)
    (Json.obj [("items", Json.arr
      [Json.obj [("name", Json.str "milk"), ("quantity", Json.num 1 0)],
       Json.obj [("name", Json.str ""), ("quantity", Json.num 2 0)]])])
    [Json.obj [("name", Json.str "milk"), ("quantity", Json.num 1 0)],
     Json.obj [("name", Json.str ""), ("quantity", Json.num 2 0)]]
    rfl rfl rfl
  exact h.1

/-- C4: `parse` fails with a `ParseError` — and never yields a partial
item list — exactly when the text does not strictly decode as JSON, the
decoded shape carries no item list, or zero valid items remain after
filtering; and, in the pipeline, a snapshot of any reachable state whose
status is `failed` has zero committed items. -/
theorem parse_error_characterization (cs : List Char) :
    ((∃ e, parseChars cs = .error e) ↔
      (decodeChars (stripFence cs) = none ∨
       (∃ j, decodeChars (stripFence cs) = some j ∧ itemListOf j = none) ∨
       (∃ j xs, decodeChars (stripFence cs) = some j ∧ itemListOf j = some xs ∧
         xs.filterMap validateItem = []))) ∧
    (∀ (cfg : Config) (s : PState), Reach cfg initState s →
      s.snap.status = .failed → s.snap.items = []) := by
  constructor
  · constructor
    · rintro ⟨e, he⟩
      rcases hd : decodeChars (stripFence cs) with _ | j
      · exact Or.inl rfl
      · rcases hl : itemListOf j with _ | xs
        · exact Or.inr (Or.inl ⟨j, rfl, hl⟩)
        · refine Or.inr (Or.inr ⟨j, xs, rfl, hl, ?_⟩)
          by_cases hie : (xs.filterMap validateItem).isEmpty = true
          · simpa [List.isEmpty_iff] using hie
          · exfalso
            rw [parseChars_decode_some hd, parseDecoded_list_some hl] at he
            rw [if_neg hie] at he
            simp at he
    · intro h
      rcases h with hd | ⟨j, hd, hl⟩ | ⟨j, xs, hd, hl, hfm⟩
      · exact ⟨.invalidJson, parseChars_decode_none hd⟩
      · exact ⟨.notAList, by rw [parseChars_decode_some hd, parseDecoded_list_none hl]⟩
      · refine ⟨.noValidItems, ?_⟩
        rw [parseChars_decode_some hd, parseDecoded_list_some hl, hfm]
        rfl
  · intro cfg s hr hf
    by_contra hne
    have hc := (reach_items_iff hr).mpr hne
    rw [hf] at hc
    exact Status.noConfusion hc

/-- Witness for C4: non-JSON prose is a parse failure. -/
theorem parse_error_characterization_witness :
    ∃ e, parseChars "model did not answer with data".data = .error e :=
  (parse_error_characterization "model did not answer with data".data).1.mpr
    (Or.inl rfl)

/-- C5: for every JSON payload, `parse` of the markdown-fenced wrapping
returns the same result as `parse` of the unwrapped payload. -/
theorem parse_fence_invariant (cs : List Char)
    (h : (decodeChars cs).isSome = true) :
    parseChars (fenceWrap cs) = parseChars cs := by
  unfold parseChars
  rw [stripFence_wrap, stripFence_of_decodable h]

/-- Witness for C5 on a concrete one-item payload. -/
theorem parse_fence_invariant_witness :
    parseChars (fenceWrap "[\x7b\"name\":\"milk\",\"quantity\":2\x7d]".data)
      = parseChars "[\x7b\"name\":\"milk\",\"quantity\":2\x7d]".data :=
  parse_fence_invariant "[\x7b\"name\":\"milk\",\"quantity\":2\x7d]".data rfl

/-- Rewriting step: decoding an object hands the fields to entry-wise
validation. -/
theorem parseCategories_decode_obj {rawText : String} {allowed : List String}
    {fields : List (String × Json)}
    (hdec : decodeChars (stripFence rawText.data) = some (.obj fields)) :
    parseCategories rawText allowed =
      (if fields.all (fun kv => allowed.contains kv.1 && (categoryValue kv.2).isSome)
          && allowed.all (fun a => fields.any (fun kv => kv.1 = a)) then
        .ok (fields.filterMap fun kv => (categoryValue kv.2).map fun c => (kv.1, c))
      else .error .invalidEntries) := by
  unfold parseCategories
  rw [hdec]

/-- C6: the categorization batch is all-or-nothing — if any single entry
of the decoded response is invalid (a key outside the product batch, a
value outside the category enum) or any product of the batch is missing
a key, validation fails the entire batch and zero category changes are
applied to any product. -/
theorem categorization_all_or_nothing (products : List Product) (rawText : String)
    (fields : List (String × Json))
    (hdec : decodeChars (stripFence rawText.data) = some (.obj fields))
    (hbad :
      (∃ kv ∈ fields, kv.1 ∉ products.map Product.name ∨ categoryValue kv.2 = none) ∨
      (∃ a ∈ products.map Product.name, ∀ kv ∈ fields, kv.1 ≠ a)) :
    parseCategories rawText (products.map Product.name) = .error .invalidEntries ∧
    applyCategoriesBatch products rawText = products := by
  have hguard :
      (fields.all (fun kv =>
          (products.map Product.name).contains kv.1 && (categoryValue kv.2).isSome)
        && (products.map Product.name).all (fun a => fields.any (fun kv => kv.1 = a)))
        = false := by
    rcases hbad with ⟨kv, hkv, hor⟩ | ⟨a, ha, hnone⟩
    · have hf : (fields.all fun kv =>
          (products.map Product.name).contains kv.1 && (categoryValue kv.2).isSome) = false := by
        rw [Bool.eq_false_iff]
        intro hall
        have hkv2 := List.all_eq_true.mp hall kv hkv
        rw [Bool.and_eq_true] at hkv2
        rcases hor with hnm | hcv
        · exact hnm (by simpa using hkv2.1)
        · have hs := hkv2.2
          rw [hcv] at hs
          simp at hs
      rw [hf, Bool.false_and]
    · have hg : ((products.map Product.name).all fun a =>
          fields.any fun kv => kv.1 = a) = false := by
        rw [Bool.eq_false_iff]
        intro hall
        have ha2 := List.all_eq_true.mp hall a ha
        rcases List.any_eq_true.mp ha2 with ⟨kv, hkv, heq⟩
        exact hnone kv hkv (by simpa using heq)
      rw [hg, Bool.and_false]
  constructor
  · rw [parseCategories_decode_obj hdec, hguard]
    rfl
  · unfold applyCategoriesBatch
    rw [parseCategories_decode_obj hdec, hguard]
    rfl

/-- Witness for C6: a two-product batch where one proposed category is
outside the enum — neither product changes. -/
theorem categorization_all_or_nothing_witness :
    parseCategories "\x7b\"milk\":\"dairy_and_alternatives\",\"eggs\":\"weird\"\x7d"
        ([Product.mk "milk" none, Product.mk "eggs" none].map Product.name)
      = .error .invalidEntries ∧
    applyCategoriesBatch [Product.mk "milk" none, Product.mk "eggs" none]
        "\x7b\"milk\":\"dairy_and_alternatives\",\"eggs\":\"weird\"\x7d"
      = [Product.mk "milk" none, Product.mk "eggs" none] :=
  categorization_all_or_nothing [Product.mk "milk" none, Product.mk "eggs" none]
    "\x7b\"milk\":\"dairy_and_alternatives\",\"eggs\":\"weird\"\x7d"
    [("milk", Json.str "dairy_and_alternatives"), ("eggs", Json.str "weird")]
    rfl
    (Or.inl ⟨("eggs", Json.str "weird"), List.Mem.tail _ (List.Mem.head _), Or.inr rfl⟩)

/-- C7 as stated is false: the backend enum identifier `fruits` is not
among the identifiers the frontend interface presents — its normalized
key is missing from the preset `CATEGORY_STYLES` key set, so
`getCategoryStyle` falls back to the default ("Uncategorized") style. -/
theorem category_enum_mismatch_cex :
    "fruits" ∈ backendCategoryStrings ∧
    normalizeCategoryKey "fruits" = "FRUITS" ∧
    "FRUITS" ∉ frontendCategoryKeys ∧
    hasPresetStyle "fruits" = false := by
  refine ⟨by decide, by decide, by decide, by decide⟩

/-- C7 amended: every category string the backend validator accepts is a
member of the fixed eight-identifier enum, but the frontend presents a
different preset key set — of the backend identifiers exactly
`protein_foods` and `other` resolve to a preset frontend style, all
others render with the default style. -/
theorem category_enum_amended :
    (∀ (s : String) (c : Category), Category.ofString s = some c →
      s ∈ backendCategoryStrings) ∧
    (∀ s ∈ backendCategoryStrings,
      (hasPresetStyle s = true ↔ s = "protein_foods" ∨ s = "other")) := by
  constructor
  · intro s c h
    unfold Category.ofString at h
    split at h <;> simp_all [backendCategoryStrings]
  · intro s hs
    simp only [backendCategoryStrings, List.mem_cons, List.not_mem_nil, or_false] at hs
    rcases hs with rfl | rfl | rfl | rfl | rfl | rfl | rfl | rfl <;> decide

/-- Witness for C7 amended: `protein_foods` is accepted by the backend
and does resolve to a preset frontend style. -/
theorem category_enum_amended_witness :
    "protein_foods" ∈ backendCategoryStrings ∧ hasPresetStyle "protein_foods" = true :=
  ⟨by decide, (category_enum_amended.2 "protein_foods" (by decide)).mpr (Or.inl rfl)⟩

/-- Round-half-up characterization: `roundHalfUpN m e` is the integer in
the half-open interval `(q - 1/2, q + 1/2]` around the decoded value
`q = m / 10 ^ e` — so ties round upward. -/
theorem roundHalfUpN_bounds (mn e : Nat) :
    (mn : Rat) / 10 ^ e - 1 / 2 < (roundHalfUpN mn e : Rat) ∧
    (roundHalfUpN mn e : Rat) ≤ (mn : Rat) / 10 ^ e + 1 / 2 := by
  have hp : (0 : Rat) < (10 : Rat) ^ e := by positivity
  have hbn : 0 < 2 * 10 ^ e := by positivity
  have hdm := Nat.div_add_mod (2 * mn + 10 ^ e) (2 * 10 ^ e)
  have hmod := Nat.mod_lt (2 * mn + 10 ^ e) hbn
  have hQ : ((2 * mn + 10 ^ e : Nat) : Rat)
      = ((2 * 10 ^ e : Nat) : Rat) * ((roundHalfUpN mn e : Nat) : Rat)
        + (((2 * mn + 10 ^ e) % (2 * 10 ^ e) : Nat) : Rat) := by
    unfold roundHalfUpN
    exact_mod_cast hdm.symm
  have hrQ : (0 : Rat) ≤ (((2 * mn + 10 ^ e) % (2 * 10 ^ e) : Nat) : Rat) := by positivity
  have hmodQ : (((2 * mn + 10 ^ e) % (2 * 10 ^ e) : Nat) : Rat)
      < ((2 * 10 ^ e : Nat) : Rat) := by exact_mod_cast hmod
  push_cast at hQ hmodQ
  constructor
  · rw [sub_lt_iff_lt_add, div_lt_iff₀ hp]
    nlinarith [hQ, hmodQ]
  · rw [← sub_nonneg]
    have h2 : (roundHalfUpN mn e : Rat) * (2 * 10 ^ e) ≤ 2 * mn + 10 ^ e := by
      nlinarith [hQ, hrQ]
    have hgoal : (mn : Rat) / 10 ^ e + 1 / 2 - (roundHalfUpN mn e : Rat)
        = (2 * mn + 10 ^ e - (roundHalfUpN mn e : Rat) * (2 * 10 ^ e)) / (2 * 10 ^ e) := by
      field_simp
      ring
    rw [hgoal]
    exact div_nonneg (sub_nonneg.mpr h2) (by positivity)

/-- C8: for an item entry with a valid name, a non-negative numeric
quantity `m / 10 ^ e` is committed as its round-half-up integer — the
unique integer in `(q - 1/2, q + 1/2]` around the decoded value `q` —
while a negative or non-numeric quantity makes the item malformed
(dropped by validation). -/
theorem quantity_round_half_up (fields : List (String × Json)) (n : String)
    (hname : alookup "name" fields = some (.str n)) (hn : n ≠ "") :
    (∀ (m : Int) (e : Nat), alookup "quantity" fields = some (.num m e) → 0 ≤ m →
      validateItem (.obj fields) = some (Item.mk (lowerStr n) (roundHalfUpN m.toNat e)) ∧
      numVal m e - 1 / 2 < (roundHalfUpN m.toNat e : Rat) ∧
      (roundHalfUpN m.toNat e : Rat) ≤ numVal m e + 1 / 2) ∧
    (∀ (m : Int) (e : Nat), alookup "quantity" fields = some (.num m e) → m < 0 →
      validateItem (.obj fields) = none) ∧
    (∀ v : Json, alookup "quantity" fields = some v → (∀ m e, v ≠ .num m e) →
      validateItem (.obj fields) = none) := by
  have hobj : ∀ fs : List (String × Json), validateItem (.obj fs) =
      match alookup "name" fs, alookup "quantity" fs with
      | some (.str nm), some (.num m e) =>
        if nm ≠ "" ∧ 0 ≤ m then some (Item.mk (lowerStr nm) (roundHalfUpN m.toNat e)) else none
      | _, _ => none := fun _ => rfl
  refine ⟨?_, ?_, ?_⟩
  · intro m e hq hm
    have hv : validateItem (.obj fields)
        = some (Item.mk (lowerStr n) (roundHalfUpN m.toNat e)) := by
      rw [hobj, hname, hq]
      show (if n ≠ "" ∧ 0 ≤ m then
          some (Item.mk (lowerStr n) (roundHalfUpN m.toNat e)) else none)
        = some (Item.mk (lowerStr n) (roundHalfUpN m.toNat e))
      rw [if_pos ⟨hn, hm⟩]
    have hcast : numVal m e = (m.toNat : Rat) / 10 ^ e := by
      unfold numVal
      rw [show ((m.toNat : Nat) : Rat) = (m : Rat) from by
        exact_mod_cast Int.toNat_of_nonneg hm]
    have hb := roundHalfUpN_bounds m.toNat e
    rw [hcast]
    exact ⟨hv, hb.1, hb.2⟩
  · intro m e hq hm
    rw [hobj, hname, hq]
    show (if n ≠ "" ∧ 0 ≤ m then
        some (Item.mk (lowerStr n) (roundHalfUpN m.toNat e)) else none) = none
    rw [if_neg]
    rintro ⟨-, hge⟩
    exact absurd hm (not_lt.mpr hge)
  · intro v hq hnot
    rw [hobj, hname, hq]
    cases v with
    | num m e => exact absurd rfl (hnot m e)
    | null => rfl
    | bool b => rfl
    | str s => rfl
    | arr xs => rfl
    | obj fs => rfl

/-- Witness for C8: quantity 1.5 rounds half-up to 2 and satisfies the
interval characterization. -/
theorem quantity_round_half_up_witness :
    validateItem (.obj [("name", Json.str "milk"), ("quantity", Json.num 15 1)])
      = some (Item.mk "milk" 2) ∧
    numVal 15 1 - 1 / 2 < ((2 : Nat) : Rat) ∧
    ((2 : Nat) : Rat) ≤ numVal 15 1 + 1 / 2 := by
  have h := (quantity_round_half_up [("name", Json.str "milk"), ("quantity", Json.num 15 1)]
    "milk" rfl (by decide)).1 15 1 rfl (by norm_num)
  exact ⟨h.1, h.2.1, h.2.2⟩

/-- A second 401/403 never triggers another refresh. -/
theorem shouldAttemptRefresh_attempted (p : String) (st : Nat) :
    shouldAttemptRefresh p st true = false := rfl

/-- The four auth paths never trigger a refresh. -/
theorem shouldAttemptRefresh_auth {p : String} {st : Nat}
    (h : nonRefreshablePaths.contains (normalizePath p) = true) (att : Bool) :
    shouldAttemptRefresh p st att = false := by
  unfold shouldAttemptRefresh
  cases att
  · by_cases hst : st ≠ 401 ∧ st ≠ 403
    · rw [if_neg (by simp), if_pos hst]
    · rw [if_neg (by simp), if_neg hst, h]
      rfl
  · rfl

/-- Statuses other than 401/403 never trigger a refresh. -/
theorem shouldAttemptRefresh_not_auth_status {p : String} {st : Nat}
    (h : st ≠ 401 ∧ st ≠ 403) (att : Bool) :
    shouldAttemptRefresh p st att = false := by
  unfold shouldAttemptRefresh
  cases att
  · rw [if_neg (by simp), if_pos h]
  · rfl

/-- A first 401/403 outside the auth paths triggers a refresh. -/
theorem shouldAttemptRefresh_first {p : String} {st : Nat}
    (hc : nonRefreshablePaths.contains (normalizePath p) = false)
    (hst : st = 401 ∨ st = 403) :
    shouldAttemptRefresh p st false = true := by
  unfold shouldAttemptRefresh
  rw [if_neg (by simp), if_neg (by rcases hst with rfl | rfl <;> simp), hc]
  rfl

/-- Unfolding equation of the fueled request loop. -/
theorem requestWithRefresh_succ (path : String) (oracle : Nat → Nat) (refreshOk : Bool)
    (fuel : Nat) (att : Bool) (idx : Nat) :
    requestWithRefresh path oracle refreshOk (fuel + 1) att idx =
      if shouldAttemptRefresh path (oracle idx) att then
        (if refreshOk then
          (requestWithRefresh path oracle refreshOk fuel true (idx + 1)).map
            (fun res => (res.1, res.2 + 1))
        else some (handleResponse (oracle idx), 1))
      else some (handleResponse (oracle idx), 0) := rfl

/-- C10: through `ApiClient.request`, a 401/403 outside the four auth
paths triggers exactly one token-refresh attempt and at most one retry,
whose own outcome is surfaced directly through `handleResponse` (an
error status on the retry becomes an `ApiError`, with no further
refresh); requests to the four auth paths, and responses other than
401/403, never trigger a refresh. -/
theorem request_refresh_policy (path : String) (oracle : Nat → Nat) (refreshOk : Bool) :
    (nonRefreshablePaths.contains (normalizePath path) = true →
      request path oracle refreshOk = some (handleResponse (oracle 0), 0)) ∧
    ((oracle 0 ≠ 401 ∧ oracle 0 ≠ 403) →
      request path oracle refreshOk = some (handleResponse (oracle 0), 0)) ∧
    (nonRefreshablePaths.contains (normalizePath path) = false →
      (oracle 0 = 401 ∨ oracle 0 = 403) →
      (refreshOk = true →
        request path oracle refreshOk = some (handleResponse (oracle 1), 1)) ∧
      (refreshOk = false →
        request path oracle refreshOk = some (handleResponse (oracle 0), 1))) ∧
    (∀ st : Nat, st = 401 ∨ st = 403 → handleResponse st = .apiError st) ∧
    (∀ res cnt, request path oracle refreshOk = some (res, cnt) → cnt ≤ 1) := by
  refine ⟨?_, ?_, ?_, ?_, ?_⟩
  · intro h
    unfold request
    rw [requestWithRefresh_succ, shouldAttemptRefresh_auth h]
    rfl
  · intro h
    unfold request
    rw [requestWithRefresh_succ, shouldAttemptRefresh_not_auth_status h]
    rfl
  · intro hc hst
    constructor
    · intro hr
      unfold request
      rw [requestWithRefresh_succ, shouldAttemptRefresh_first hc hst, hr]
      rw [if_pos rfl, if_pos rfl]
      rw [requestWithRefresh_succ, shouldAttemptRefresh_attempted]
      rfl
    · intro hr
      unfold request
      rw [requestWithRefresh_succ, shouldAttemptRefresh_first hc hst, hr]
      rfl
  · intro st hst
    unfold handleResponse
    rcases hst with rfl | rfl <;> rfl
  · intro res cnt h
    unfold request at h
    rw [requestWithRefresh_succ] at h
    by_cases h0 : shouldAttemptRefresh path (oracle 0) false = true
    · rw [if_pos h0] at h
      by_cases hr : refreshOk = true
      · rw [if_pos hr] at h
        rw [requestWithRefresh_succ, shouldAttemptRefresh_attempted] at h
        simp at h
        omega
      · rw [if_neg hr] at h
        simp only [Option.some.injEq, Prod.mk.injEq] at h
        omega
    · rw [if_neg h0] at h
      simp only [Option.some.injEq, Prod.mk.injEq] at h
      omega

/-- Witness for C10: a 401 on a data path with a working refresh is
retried once and the retry result surfaced. -/
theorem request_refresh_policy_witness :
    request "/items" (fun k => if k = 0 then 401 else 200) true
      = some (.success 200, 1) :=
  ((request_refresh_policy "/items" (fun k => if k = 0 then 401 else 200) true).2.2.1
    rfl (Or.inl rfl)).1 rfl

end SmartFridge
